import Mathlib

/-!
Verification of the orchestrator core of the distributed task-execution
platform (files `config.py`, `shared/models.py`, `orchestrator/state_manager.py`,
`orchestrator/lamport_clock.py`, `orchestrator/load_balancer.py`,
`orchestrator/main.py`).

The Python runtime values that flow through the system (JSON payloads,
worker addresses, task results) are embedded as the inductive type `PyVal`.
Python dictionaries are embedded as insertion-ordered association lists with
the key-based update `dictSet` (Python dict assignment: update in place if
the key exists, else append) and lookup `dictGet` (`dict.get`).

Mutation of a `Task` object that is shared between the task table and local
variables is rendered by writing the updated record back into the table at
the task's key, exactly at the program points where the Python code mutates
the object.
-/

namespace SD

mutual

/-- Embedding of the Python runtime values exchanged by the system: JSON
scalars, strings, lists, tuples and string-keyed dicts.  Tuples and lists
are distinguished because `json.dumps` serializes a tuple as a JSON array,
which `json.loads` turns back into a list.  Floats are embedded as ℚ. -/
inductive PyVal where
  | none
  | bool (b : Bool)
  | int (n : Int)
  | float (q : ℚ)
  | str (s : String)
  | list (xs : PyList)
  | tuple (xs : PyList)
  | dict (kvs : PyKVs)
deriving DecidableEq, Repr

/-- The elements of a Python list or tuple value. -/
inductive PyList where
  | nil
  | cons (x : PyVal) (xs : PyList)
deriving DecidableEq, Repr

/-- The entries of a string-keyed Python dict value. -/
inductive PyKVs where
  | nil
  | cons (k : String) (v : PyVal) (xs : PyKVs)
deriving DecidableEq, Repr

end

mutual

/-- Effect of a `json.dumps`/`json.loads` round trip on a serializable
Python value: every tuple becomes a list; everything else is preserved
(Python's `json` module prints floats with `repr`, which round-trips
exactly). -/
def jsonNorm : PyVal → PyVal
  | PyVal.none => PyVal.none
  | PyVal.bool b => PyVal.bool b
  | PyVal.int n => PyVal.int n
  | PyVal.float q => PyVal.float q
  | PyVal.str s => PyVal.str s
  | PyVal.list xs => PyVal.list (jsonNormList xs)
  | PyVal.tuple xs => PyVal.list (jsonNormList xs)
  | PyVal.dict kvs => PyVal.dict (jsonNormKVs kvs)

/-- Pointwise `jsonNorm` on the elements of a JSON array. -/
def jsonNormList : PyList → PyList
  | PyList.nil => PyList.nil
  | PyList.cons x xs => PyList.cons (jsonNorm x) (jsonNormList xs)

/-- Pointwise `jsonNorm` on the values of a JSON object. -/
def jsonNormKVs : PyKVs → PyKVs
  | PyKVs.nil => PyKVs.nil
  | PyKVs.cons k v xs => PyKVs.cons k (jsonNorm v) (jsonNormKVs xs)

end

/-- The `('host', port)` address tuple delivered by `socket.recvfrom`. -/
def addrTuple (host : String) (port : Int) : PyVal :=
  PyVal.tuple (PyList.cons (PyVal.str host) (PyList.cons (PyVal.int port) PyList.nil))

/-- The `['host', port]` address list that a snapshot reload produces. -/
def addrList (host : String) (port : Int) : PyVal :=
  PyVal.list (PyList.cons (PyVal.str host) (PyList.cons (PyVal.int port) PyList.nil))

/-- The `Task` dataclass of `shared/models.py`: id, submitting client,
status string, opaque payload, Lamport timestamp, optional assigned worker,
optional result.  Defaults are those of the dataclass. -/
structure Task where
  id : String
  client_id : String
  status : String := "PENDING"
  data : PyVal := PyVal.dict PyKVs.nil
  lamport_ts : Int := 0
  assigned_worker : Option String := Option.none
  result : PyVal := PyVal.none
deriving DecidableEq, Repr

/-- A worker entry of the `StateManager.workers` dict:
`{'addr': ('host', port), 'last_heartbeat': ts}`.  The address is a raw
Python value (a tuple as delivered by `socket.recvfrom`, or a list after a
snapshot reload); the heartbeat is a wall-clock float, embedded as ℚ. -/
structure WorkerEntry where
  addr : PyVal
  last_heartbeat : ℚ
deriving DecidableEq, Repr

/-- The mutable state owned by `StateManager` (`orchestrator/state_manager.py`):
the task table, the FIFO queue of pending task ids, and the worker table.
Python dicts are insertion-ordered, hence association lists. -/
structure StateManager where
  tasks : List (String × Task) := []
  pending_tasks : List String := []
  workers : List (String × WorkerEntry) := []
deriving DecidableEq, Repr

/-- Lookup in a Python dict (`d.get(k)` / `d[k]` when present): the value at
the first entry whose key is `k`, if any. -/
def dictGet {α : Type} (l : List (String × α)) (k : String) : Option α :=
  match l with
  | [] => Option.none
  | p :: rest => if p.1 = k then some p.2 else dictGet rest k

/-- Python dict assignment `d[k] = v`: if the key is present, replace the
value in place (keeping the entry's position); otherwise append the new
entry at the end. -/
def dictSet {α : Type} (l : List (String × α)) (k : String) (v : α) :
    List (String × α) :=
  match l with
  | [] => [(k, v)]
  | p :: rest => if p.1 = k then (k, v) :: rest else p :: dictSet rest k v

/-- Seconds without a heartbeat before a worker is declared dead
(`config.WORKER_TIMEOUT = 5.0`). -/
def WORKER_TIMEOUT : ℚ := 5

/-- The static credential store `config.USERS`. -/
def USERS : List (String × String) := [("user1", "pass1"), ("user2", "pass2")]

/-- The shared token secret `config.SECRET_KEY`. -/
def SECRET_KEY : String := "sua-chave-super-secreta"

/-- `StateManager.add_task`: insert the task into the table under its id and
append the id to the pending queue. -/
def add_task (st : StateManager) (task : Task) : StateManager :=
  { st with
    tasks := dictSet st.tasks task.id task
    pending_tasks := st.pending_tasks ++ [task.id] }

/-- `StateManager.get_next_task`: if the queue is empty return none; else pop
the head id, look the task up (`dict.get`), and if found mark it
`IN_PROGRESS` (an in-place mutation of the object held by the table) and
return it.  When the id is not in the table the popped queue is kept and
`None` is returned (`if task:` guards only the status write). -/
def get_next_task (st : StateManager) : Option Task × StateManager :=
  match st.pending_tasks with
  | [] => (Option.none, st)
  | task_id :: rest =>
    match dictGet st.tasks task_id with
    | Option.none => (Option.none, { st with pending_tasks := rest })
    | some t =>
      let t' := { t with status := "IN_PROGRESS" }
      (some t', { st with pending_tasks := rest, tasks := dictSet st.tasks task_id t' })

/-- `StateManager.update_worker_heartbeat`: upsert the worker entry with the
datagram's source address and the current wall-clock time. -/
def update_worker_heartbeat (st : StateManager) (worker_id : String)
    (worker_addr : PyVal) (now : ℚ) : StateManager :=
  { st with workers := dictSet st.workers worker_id ⟨worker_addr, now⟩ }

/-- The guard of the rescue loop in `check_dead_workers`:
`task.assigned_worker == worker_id and task.status == "IN_PROGRESS"`. -/
def needsRescue (worker_id : String) (t : Task) : Bool :=
  decide (t.assigned_worker = some worker_id) && decide (t.status = "IN_PROGRESS")

/-- The in-place reset performed on a rescued task:
`task.status = "PENDING"; task.assigned_worker = None`. -/
def resetTask (t : Task) : Task :=
  { t with status := "PENDING", assigned_worker := Option.none }

/-- Effect of one iteration of the rescue loop on the table entry it
inspects: a matching task is mutated in place. -/
def rescueUpd (worker_id : String) (p : String × Task) : String × Task :=
  if needsRescue worker_id p.2 then (p.1, resetTask p.2) else p

/-- The ids of the tasks the rescue loop matches for one dead worker, in
table iteration order. -/
def rescuedIds (worker_id : String) (ts : List (String × Task)) : List String :=
  (ts.filter (fun p => needsRescue worker_id p.2)).map Prod.fst

/-- The inner loop of `check_dead_workers` for one dead worker: iterate over
the task table, mutate every matching task in place (a positional update of
the dict's values) and `insert(0, task_id)` its id into the pending queue.
The net effect is a map over the table entries plus a fold prepending the
matching ids in iteration order. -/
def rescueLoop (worker_id : String) (s : StateManager) : StateManager :=
  { s with
    tasks := s.tasks.map (rescueUpd worker_id)
    pending_tasks := s.tasks.foldl (fun q p =>
      if needsRescue worker_id p.2 then p.1 :: q else q) s.pending_tasks }

/-- The body of the loop over dead workers in `check_dead_workers`: delete
the worker from the table (`del self.workers[worker_id]`), then rescue its
tasks. -/
def deadStep (s : StateManager) (worker_id : String) : StateManager :=
  rescueLoop worker_id
    { s with workers := s.workers.filter (fun p => decide (p.1 ≠ worker_id)) }

/-- The ids collected by the dead-worker list comprehension: workers whose
last heartbeat is older than `WORKER_TIMEOUT` at time `now`, in table
order. -/
def deadIds (st : StateManager) (now : ℚ) : List String :=
  (st.workers.filter (fun p => decide (now - p.2.last_heartbeat > WORKER_TIMEOUT))).map Prod.fst

/-- `StateManager.check_dead_workers`: collect the ids whose last heartbeat
is older than `WORKER_TIMEOUT`, then for each such id delete the worker and
run the rescue loop; finally return the remaining worker ids together with
the new state. -/
def check_dead_workers (st : StateManager) (now : ℚ) :
    List String × StateManager :=
  let st' := (deadIds st now).foldl deadStep st
  (st'.workers.map Prod.fst, st')

/-- `StateManager.update_task_status`: if the id is known, overwrite the
task's status and result (the `result` parameter defaults to `None`);
unknown ids are ignored. -/
def update_task_status (st : StateManager) (task_id : String) (status : String)
    (result : PyVal := PyVal.none) : StateManager :=
  match dictGet st.tasks task_id with
  | Option.none => st
  | some t =>
    { st with tasks := dictSet st.tasks task_id { t with status := status, result := result } }

/-- `StateManager.get_task_status`: a snapshot view of the task, if known. -/
def get_task_status (st : StateManager) (task_id : String) : Option Task :=
  dictGet st.tasks task_id

/-- Effect of snapshot serialization on one task: `task.__dict__` is dumped
to JSON, so its `data` and `result` payloads are JSON-normalized; all other
fields are scalars or strings and survive unchanged. -/
def taskNorm (t : Task) : Task :=
  { t with data := jsonNorm t.data, result := jsonNorm t.result }

/-- Effect of snapshot serialization on one worker entry: the address value
is JSON-normalized (a `('host', port)` tuple becomes a `['host', port]`
list); the heartbeat float survives exactly. -/
def workerNorm (e : WorkerEntry) : WorkerEntry :=
  { e with addr := jsonNorm e.addr }

/-- The decoded `"tasks"` field of a snapshot: either a mapping all of whose
records reconstruct (`Task(**t_data)` succeeds), or one that makes the dict
comprehension raise (missing or unexpected keyword arguments).  The Python
dataclass does not validate field values, but a record whose values do not
have the field shapes produced by `get_state_snapshot` makes every later
use of the task raise; such snapshots are outside this model. -/
inductive TasksField where
  | undecodable
  | records (ts : List (String × Task))
deriving DecidableEq, Repr

/-- The decoded body of a snapshot datagram: each field is `some` when the
corresponding key is present in the JSON object (`state[key]` raises
`KeyError` otherwise).  Bodies whose `pending_tasks` or `workers` values do
not have the shapes produced by `get_state_snapshot` are outside this
model. -/
structure SnapshotDoc where
  tasks : Option TasksField := Option.none
  pending_tasks : Option (List String) := Option.none
  workers : Option (List (String × WorkerEntry)) := Option.none
deriving DecidableEq, Repr

/-- Classification of the byte string handed to `load_state_snapshot`:
it fails `json.loads` (`JSONDecodeError`), or decodes to a non-object
(subscripting raises `TypeError`), or decodes to a JSON object described by
a `SnapshotDoc`. -/
inductive LoadInput where
  | malformed
  | nonObject
  | doc (d : SnapshotDoc)
deriving DecidableEq, Repr

/-- How a call to `load_state_snapshot` terminates: normally; by catching a
`json.JSONDecodeError` or `KeyError` (logged); or by an exception escaping
the handler (`TypeError` from `Task(**t_data)` or from subscripting a
non-object). -/
inductive LoadOutcome where
  | ok
  | caught
  | raised
deriving DecidableEq, Repr

/-- Running maximum of the loaded tasks' Lamport timestamps, exactly as
computed by the loop in `load_state_snapshot` (`max_ts` starts at 0). -/
def maxLamport (ts : List (String × Task)) : Int :=
  ts.foldl (fun m p => if p.2.lamport_ts > m then p.2.lamport_ts else m) 0

/-- `StateManager.get_state_snapshot`: serialize
`{tasks, pending_tasks, workers}` to JSON.  The model returns the document
the produced bytes decode to: every key present, every task record
reconstructible, and every payload JSON-normalized. -/
def get_state_snapshot (st : StateManager) : LoadInput :=
  LoadInput.doc
    { tasks := some (TasksField.records (st.tasks.map (fun p => (p.1, taskNorm p.2))))
      pending_tasks := some st.pending_tasks
      workers := some (st.workers.map (fun p => (p.1, workerNorm p.2))) }

/-- `StateManager.load_state_snapshot`: decode the snapshot and assign
`tasks`, then `pending_tasks`, then `workers`, then set the clock to the
maximum Lamport timestamp.  `JSONDecodeError` and `KeyError` are caught and
logged; the assignments already performed before the error are kept, which
is why the intermediate states appear below.  Returns the new state, the
new clock time, and how the call terminated. -/
def load_state_snapshot (inp : LoadInput) (st : StateManager) (clockTime : Int) :
    StateManager × Int × LoadOutcome :=
  match inp with
  | LoadInput.malformed => (st, clockTime, LoadOutcome.caught)
  | LoadInput.nonObject => (st, clockTime, LoadOutcome.raised)
  | LoadInput.doc d =>
    match d.tasks with
    | Option.none => (st, clockTime, LoadOutcome.caught)
    | some TasksField.undecodable => (st, clockTime, LoadOutcome.raised)
    | some (TasksField.records ts) =>
      let st1 := { st with tasks := ts }
      match d.pending_tasks with
      | Option.none => (st1, clockTime, LoadOutcome.caught)
      | some ps =>
        let st2 := { st1 with pending_tasks := ps }
        match d.workers with
        | Option.none => (st2, clockTime, LoadOutcome.caught)
        | some ws =>
          ({ st2 with workers := ws }, maxLamport ts, LoadOutcome.ok)

/-- `LamportClock.increment` (`orchestrator/lamport_clock.py`): add one to
the counter and return the new value.  The clock state is its integer time;
the pair is (returned timestamp, new clock state). -/
def increment (time : Int) : Int × Int :=
  (time + 1, time + 1)

/-- `LamportClock.update`: set the counter to `max(time, received) + 1` and
return the new value. -/
def clock_update (time received_time : Int) : Int × Int :=
  (max time received_time + 1, max time received_time + 1)

/-- The timestamps returned by `n` consecutive `increment()` calls on a
clock that currently reads `time`. -/
def incrementSeq (time : Int) : Nat → List Int
  | 0 => []
  | n + 1 => (increment time).1 :: incrementSeq (increment time).2 n

/-- The `RoundRobinLoadBalancer` of `orchestrator/load_balancer.py`: a list
of worker ids and a cursor. -/
structure RoundRobinLoadBalancer where
  workers : List String := []
  current_index : Nat := 0
deriving DecidableEq, Repr

/-- `RoundRobinLoadBalancer.update_workers`: replace the list with the
sorted incoming list; if the cursor is now out of bounds, reset it to 0. -/
def update_workers (lb : RoundRobinLoadBalancer) (workers : List String) :
    RoundRobinLoadBalancer :=
  let sorted := workers.insertionSort (fun a b => a ≤ b)
  { workers := sorted
    current_index := if lb.current_index ≥ sorted.length then 0 else lb.current_index }

/-- `RoundRobinLoadBalancer.get_next_worker`: if the list is empty return
none; else re-check the cursor bound (resetting to 0 if needed), read the
worker at the cursor, advance the cursor modulo the length, and return the
read id. -/
def get_next_worker (lb : RoundRobinLoadBalancer) :
    Option String × RoundRobinLoadBalancer :=
  if h : lb.workers.length = 0 then (Option.none, lb)
  else
    let i := if lb.current_index ≥ lb.workers.length then 0 else lb.current_index
    have hi : i < lb.workers.length := by
      by_cases hc : lb.current_index ≥ lb.workers.length
      · simpa [i, hc] using Nat.pos_of_ne_zero h
      · simpa [i, hc] using Nat.lt_of_not_le hc
    (some (lb.workers.get ⟨i, hi⟩),
     { lb with current_index := (i + 1) % lb.workers.length })

/-- The sequence of results of `K` consecutive `get_next_worker()` calls,
together with the balancer state they leave behind. -/
def runRR (lb : RoundRobinLoadBalancer) : Nat → List (Option String) × RoundRobinLoadBalancer
  | 0 => ([], lb)
  | k + 1 =>
    let r := get_next_worker lb
    let rest := runRR r.2 k
    (r.1 :: rest.1, rest.2)

/-- A decoded client request (`handle_client` reads one JSON object): the
fields the endpoint consults, each `some` when the key is present. -/
structure ClientRequest where
  action : Option String := Option.none
  token : Option String := Option.none
  username : Option String := Option.none
  password : Option String := Option.none
  task_id : Option String := Option.none
  data : PyVal := PyVal.dict PyKVs.nil
deriving DecidableEq, Repr

/-- Python's f-string rendering of an optional string: `None` prints as the
four-character string `"None"`. -/
def pyStr : Option String → String
  | some s => s
  | Option.none => "None"

/-- The token computation
`hashlib.sha256(f"{username}{SECRET_KEY}".encode()).hexdigest()`.  The hash
is an uninterpreted parameter standing for lowercase-hex SHA-256. -/
def make_token (hash : String → String) (username : Option String) : String :=
  hash (pyStr username ++ SECRET_KEY)

/-- `Orchestrator.handle_login`: if `USERS.get(username) == password`
(Python equality on possibly-`None` values), reply with the token for the
f-string rendering of `username`; otherwise reply with the credential
error. -/
def handle_login (hash : String → String) (req : ClientRequest) : PyVal :=
  if (match req.username with
      | some u => dictGet USERS u
      | Option.none => Option.none) = req.password then
    PyVal.dict (PyKVs.cons "token" (PyVal.str (make_token hash req.username)) PyKVs.nil)
  else
    PyVal.dict (PyKVs.cons "error" (PyVal.str "Credenciais inválidas") PyKVs.nil)

/-- `Orchestrator.verify_token`: the token is valid iff it equals the
expected token of some known user. -/
def verify_token (hash : String → String) (token : String) : Bool :=
  USERS.any (fun p => decide (token = make_token hash (some p.1)))

/-- `Orchestrator.get_user_from_token`: the first known user whose expected
token matches, else `"unknown"`. -/
def get_user_from_token (hash : String → String) (token : String) : String :=
  match USERS.find? (fun p => decide (token = make_token hash (some p.1))) with
  | some p => p.1
  | Option.none => "unknown"

/-- Python dict literal view of a task, as sent in `task_status` replies
(`task.__dict__`). -/
def taskToPy (t : Task) : PyVal :=
  PyVal.dict
    (PyKVs.cons "id" (PyVal.str t.id)
    (PyKVs.cons "client_id" (PyVal.str t.client_id)
    (PyKVs.cons "status" (PyVal.str t.status)
    (PyKVs.cons "data" t.data
    (PyKVs.cons "lamport_ts" (PyVal.int t.lamport_ts)
    (PyKVs.cons "assigned_worker"
      (match t.assigned_worker with
       | some w => PyVal.str w
       | Option.none => PyVal.none)
    (PyKVs.cons "result" t.result PyKVs.nil)))))))

/-- `Orchestrator.handle_submit_task`: identify the client from the token
(always present on this path, `handle_client` guards it), build a fresh
task stamped with `clock.increment()`, add it to the state, and reply with
the task id.  `newId` stands for the generated UUID.  Returns the reply,
the new state, and the new clock time. -/
def handle_submit_task (hash : String → String) (req : ClientRequest)
    (st : StateManager) (clockTime : Int) (newId : String) :
    PyVal × StateManager × Int :=
  let client_id := get_user_from_token hash ((req.token).getD "")
  let r := increment clockTime
  let task : Task := { id := newId, client_id := client_id, data := req.data, lamport_ts := r.1 }
  (PyVal.dict
     (PyKVs.cons "status" (PyVal.str "Tarefa recebida")
     (PyKVs.cons "task_id" (PyVal.str newId) PyKVs.nil)),
   add_task st task, r.2)

/-- `Orchestrator.handle_task_status`: look the task up and reply with its
attribute map, or with the not-found error. -/
def handle_task_status (st : StateManager) (req : ClientRequest) : PyVal :=
  match get_task_status st ((req.task_id).getD "") with
  | some t => taskToPy t
  | Option.none => PyVal.dict (PyKVs.cons "error" (PyVal.str "Tarefa não encontrada") PyKVs.nil)

/-- `Orchestrator.handle_client`: route one request.  Without a token, only
`login` is served; anything else gets the authentication-required error.
With a token, an invalid token gets the token error; a valid one routes
`submit_task` and `task_status`, and any other action receives no reply at
all.  Returns the reply sent (if any), the new state, and the new clock. -/
def handle_client (hash : String → String) (req : ClientRequest)
    (st : StateManager) (clockTime : Int) (newId : String) :
    Option PyVal × StateManager × Int :=
  match req.token with
  | Option.none =>
    if req.action = some "login" then
      (some (handle_login hash req), st, clockTime)
    else
      (some (PyVal.dict (PyKVs.cons "error" (PyVal.str "Autenticação necessária") PyKVs.nil)),
       st, clockTime)
  | some token =>
    if verify_token hash token then
      match req.action with
      | some "submit_task" =>
        let r := handle_submit_task hash req st clockTime newId
        (some r.1, r.2)
      | some "task_status" => (some (handle_task_status st req), st, clockTime)
      | _ => (Option.none, st, clockTime)
    else
      (some (PyVal.dict (PyKVs.cons "error" (PyVal.str "Token inválido ou expirado") PyKVs.nil)),
       st, clockTime)

/-- A run of `submit_task` requests served in sequence by one orchestrator:
for each (uuid, request), call `handle_submit_task` and record the Lamport
timestamp of the task it stored (looked up in the resulting table).
Returns the final clock, the final state, and the stamps in order. -/
def runSubmits (hash : String → String) (clockTime : Int) (st : StateManager) :
    List (String × ClientRequest) → Int × StateManager × List Int
  | [] => (clockTime, st, [])
  | (newId, req) :: rest =>
    let r := handle_submit_task hash req st clockTime newId
    let stamp := match dictGet r.2.1.tasks newId with
      | some t => t.lamport_ts
      | Option.none => 0
    let rr := runSubmits hash r.2.2 r.2.1 rest
    (rr.1, rr.2.1, stamp :: rr.2.2)

/-- One iteration of the `distribute_tasks` loop (`orchestrator/main.py`):
pop the next task; if none, idle.  Ask the balancer for a worker; if none,
re-queue the task via `add_task` (its status, already set to `IN_PROGRESS`
by `get_next_task`, is not touched).  Otherwise look the worker up in the
worker table and attempt the TCP connection (`connect_ok` says whether the
environment accepts it): on success the task object is mutated with
`assigned_worker = worker_id` (visible through the table); on `KeyError` or
`ConnectionRefusedError`, clear `assigned_worker` and re-queue via
`add_task`. -/
def distribute_step (st : StateManager) (lb : RoundRobinLoadBalancer)
    (connect_ok : Bool) : StateManager × RoundRobinLoadBalancer :=
  match get_next_task st with
  | (Option.none, st') => (st', lb)
  | (some task, st') =>
    match get_next_worker lb with
    | (Option.none, lb') => (add_task st' task, lb')
    | (some worker_id, lb') =>
      match dictGet st'.workers worker_id, connect_ok with
      | some _, true =>
        let t' := { task with assigned_worker := some worker_id }
        ({ st' with tasks := dictSet st'.tasks task.id t' }, lb')
      | _, _ => (add_task st' { task with assigned_worker := Option.none }, lb')

/-- One transition of the orchestrator's shared state (task table, pending
queue, worker table, balancer), by any of the operations the primary's
threads perform: a `submit_task` (fresh uuid) adding a PENDING task, an
iteration of the dispatch loop, a worker heartbeat, the liveness monitor
(`check_dead_workers` followed by `update_workers`), or a `task_complete`
datagram. -/
inductive SysStep : StateManager × RoundRobinLoadBalancer →
    StateManager × RoundRobinLoadBalancer → Prop where
  | submit (s : StateManager × RoundRobinLoadBalancer)
      (id client : String) (data : PyVal) (ts : Int)
      (hfresh : dictGet s.1.tasks id = Option.none) :
      SysStep s (add_task s.1 { id := id, client_id := client, data := data, lamport_ts := ts }, s.2)
  | distribute (s : StateManager × RoundRobinLoadBalancer) (connect_ok : Bool) :
      SysStep s (distribute_step s.1 s.2 connect_ok)
  | heartbeat (s : StateManager × RoundRobinLoadBalancer)
      (worker_id : String) (addr : PyVal) (now : ℚ) :
      SysStep s (update_worker_heartbeat s.1 worker_id addr now, s.2)
  | monitor (s : StateManager × RoundRobinLoadBalancer) (now : ℚ) :
      SysStep s ((check_dead_workers s.1 now).2,
                 update_workers s.2 (check_dead_workers s.1 now).1)
  | complete (s : StateManager × RoundRobinLoadBalancer)
      (task_id : String) (result : PyVal) :
      SysStep s (update_task_status s.1 task_id "COMPLETED" result, s.2)

/-- The states reachable from a freshly started primary (empty store, empty
balancer) by the operations of `SysStep`. -/
def SysReachable (s : StateManager × RoundRobinLoadBalancer) : Prop :=
  Relation.ReflTransGen SysStep ({}, {}) s

/-! ## Association-list (Python dict) lemmas -/

theorem dictGet_dictSet_self {α : Type} (l : List (String × α)) (k : String) (v : α) :
    dictGet (dictSet l k v) k = some v := by
  induction l with
  | nil => simp [dictSet, dictGet]
  | cons p rest ih =>
    by_cases h : p.1 = k
    · simp [dictSet, dictGet, h]
    · simp [dictSet, dictGet, h, ih]

theorem dictGet_dictSet_ne {α : Type} (l : List (String × α)) (k k' : String) (v : α)
    (h : k ≠ k') : dictGet (dictSet l k v) k' = dictGet l k' := by
  induction l with
  | nil => simp [dictSet, dictGet, h]
  | cons p rest ih =>
    by_cases hp : p.1 = k
    · simp [dictSet, dictGet, hp, h]
    · simp [dictSet, dictGet, hp, ih]

theorem dictSet_dictSet_self {α : Type} (l : List (String × α)) (k : String) (v w : α) :
    dictSet (dictSet l k v) k w = dictSet l k w := by
  induction l with
  | nil => simp [dictSet]
  | cons p rest ih =>
    by_cases h : p.1 = k
    · simp [dictSet, h]
    · simp [dictSet, h, ih]

/-! ## C8: idempotent completion -/

/-- C8: delivering the same `task_complete` twice leaves the state identical
to delivering it once, and a completion for an unknown task id is a
no-op. -/
theorem update_task_status_idempotent (st : StateManager) (task_id : String) (result : PyVal) :
    update_task_status (update_task_status st task_id "COMPLETED" result)
        task_id "COMPLETED" result
      = update_task_status st task_id "COMPLETED" result
    ∧ (dictGet st.tasks task_id = Option.none →
        update_task_status st task_id "COMPLETED" result = st) := by
  constructor
  · cases h : dictGet st.tasks task_id with
    | none => simp [update_task_status, h]
    | some t =>
      simp only [update_task_status, h]
      simp [dictGet_dictSet_self, dictSet_dictSet_self]
  · intro h
    simp [update_task_status, h]

/-- Witness for C8 at a concrete store: a stored task and an absent id. -/
theorem update_task_status_idempotent_witness :
    update_task_status (update_task_status
        { tasks := [("t1", { id := "t1", client_id := "user1" })] }
        "t1" "COMPLETED" (PyVal.str "ok")) "t1" "COMPLETED" (PyVal.str "ok")
      = update_task_status { tasks := [("t1", { id := "t1", client_id := "user1" })] }
          "t1" "COMPLETED" (PyVal.str "ok")
    ∧ update_task_status { tasks := [("t1", { id := "t1", client_id := "user1" })] }
        "zz" "COMPLETED" (PyVal.str "ok")
      = { tasks := [("t1", { id := "t1", client_id := "user1" })] } :=
  ⟨(update_task_status_idempotent _ "t1" (PyVal.str "ok")).1,
   (update_task_status_idempotent _ "zz" (PyVal.str "ok")).2 (by decide)⟩

/-! ## C10: update_task_status erases the stored result when called without one -/

/-- C10: for a known task id, `update_task_status` overwrites the result
field unconditionally; invoking it with the `result` argument omitted
(its default `None`) stores `None`, erasing any previous result. -/
theorem update_task_status_erases_result (st : StateManager) (task_id status : String)
    (t : Task) (h : dictGet st.tasks task_id = some t) :
    dictGet (update_task_status st task_id status).tasks task_id
      = some { t with status := status, result := PyVal.none } := by
  simp [update_task_status, h, dictGet_dictSet_self]

/-- Witness for C10: a task holding result `"precious"` loses it when only
the status is updated. -/
theorem update_task_status_erases_result_witness :
    dictGet (update_task_status
        { tasks := [("t1", { id := "t1", client_id := "user1", status := "COMPLETED",
                             result := PyVal.str "precious" })] }
        "t1" "FAILED").tasks "t1"
      = some { id := "t1", client_id := "user1", status := "FAILED",
               result := PyVal.none } :=
  update_task_status_erases_result _ "t1" "FAILED"
    { id := "t1", client_id := "user1", status := "COMPLETED",
      result := PyVal.str "precious" } (by decide)

/-! ## C5: Lamport monotonicity -/

theorem incrementSeq_gt (time : Int) (n : Nat) :
    ∀ x ∈ incrementSeq time n, time < x := by
  induction n generalizing time with
  | zero => simp [incrementSeq]
  | succ n ih =>
    intro x hx
    simp only [incrementSeq, increment, List.mem_cons] at hx
    rcases hx with h | h
    · omega
    · have := ih (time + 1) x h
      omega

/-- C5: the timestamps returned by any sequence of `increment()` calls on
one clock are strictly increasing, and a run of `submit_task` requests
stamps its tasks with exactly that sequence of timestamps. -/
theorem lamport_timestamps_strictly_increasing :
    (∀ (time : Int) (n : Nat), (incrementSeq time n).Pairwise (· < ·))
    ∧ (∀ (hash : String → String) (clockTime : Int) (st : StateManager)
         (reqs : List (String × ClientRequest)),
        (runSubmits hash clockTime st reqs).2.2 = incrementSeq clockTime reqs.length) := by
  constructor
  · intro time n
    induction n generalizing time with
    | zero => simp [incrementSeq]
    | succ n ih =>
      simp only [incrementSeq, increment, List.pairwise_cons]
      exact ⟨fun x hx => incrementSeq_gt (time + 1) n x hx |>.trans_le' (by omega),
             ih (time + 1)⟩
  · intro hash clockTime st reqs
    induction reqs generalizing clockTime st with
    | nil => simp [runSubmits, incrementSeq]
    | cons r rest ih =>
      simp only [runSubmits, handle_submit_task, add_task, increment, List.length_cons,
        incrementSeq, dictGet_dictSet_self]
      rw [ih]

/-! ## C1: rejected snapshots are not always mutation-free -/

/-- The byte string `b'{"tasks": {}, "workers": {}}'`: valid JSON, the
`pending_tasks` key missing. -/
def c1Input : LoadInput :=
  LoadInput.doc { tasks := some (TasksField.records []), pending_tasks := Option.none,
                  workers := Option.none }

/-- A store holding one task, against which the incomplete snapshot is
loaded. -/
def c1State : StateManager :=
  { tasks := [("t1", { id := "t1", client_id := "user1", lamport_ts := 1 })],
    pending_tasks := ["t1"] }

/-- C1: loading the incomplete snapshot `{"tasks": {}, "workers": {}}` is
rejected (the `KeyError` on `pending_tasks` is caught and logged), yet the
task table has already been replaced by the snapshot's empty one: the
rejected snapshot mutates state, contradicting the claim. -/
theorem load_state_snapshot_partial_mutation :
    (load_state_snapshot c1Input c1State 7).2.2 = LoadOutcome.caught
    ∧ (load_state_snapshot c1Input c1State 7).1.tasks = []
    ∧ c1State.tasks ≠ []
    ∧ (load_state_snapshot c1Input c1State 7).1 ≠ c1State := by
  decide

/-! ## C2: the dispatch loop re-queues tasks without resetting their status -/

/-- A store holding one freshly submitted task. -/
def c2State : StateManager :=
  add_task {} { id := "t1", client_id := "user1", lamport_ts := 1 }

/-- A balancer that knows a worker which has no entry in the worker table,
so that dispatch hits the `KeyError` re-queue path. -/
def c2Balancer : RoundRobinLoadBalancer := { workers := ["localhost_60001"] }

/-- C2: on both re-queue paths of `distribute_tasks` (no worker available;
connection failure) the task ends up back in the pending queue with
`assigned_worker = None` but with status `IN_PROGRESS`, not `PENDING`: the
status set by `get_next_task` is never reset. -/
theorem distribute_requeue_leaves_in_progress :
    ((distribute_step c2State {} true).1.pending_tasks = ["t1"]
     ∧ (dictGet (distribute_step c2State {} true).1.tasks "t1").map Task.status
         = some "IN_PROGRESS"
     ∧ (dictGet (distribute_step c2State {} true).1.tasks "t1").map Task.assigned_worker
         = some Option.none)
    ∧ ((distribute_step c2State c2Balancer true).1.pending_tasks = ["t1"]
     ∧ (dictGet (distribute_step c2State c2Balancer true).1.tasks "t1").map Task.status
         = some "IN_PROGRESS"
     ∧ (dictGet (distribute_step c2State c2Balancer true).1.tasks "t1").map Task.assigned_worker
         = some Option.none) := by
  decide

/-! ## C3: the queue/status invariant fails on a reachable state -/

/-- The task submitted in the C3 scenario. -/
def c3Task : Task :=
  { id := "t1", client_id := "user1", data := PyVal.dict PyKVs.nil, lamport_ts := 1 }

/-- C3: from the initial state, submitting one task and running one
iteration of the dispatch loop with no registered workers reaches a state
in which the task is simultaneously in the pending queue and
`IN_PROGRESS`, refuting the claimed invariant. -/
theorem queued_in_progress_state_reachable :
    SysReachable (distribute_step (add_task {} c3Task) {} true)
    ∧ "t1" ∈ (distribute_step (add_task {} c3Task) {} true).1.pending_tasks
    ∧ (dictGet (distribute_step (add_task {} c3Task) {} true).1.tasks "t1").map Task.status
        = some "IN_PROGRESS" := by
  refine ⟨?_, by decide, by decide⟩
  have h1 : SysStep ({}, {}) (add_task {} c3Task, {}) :=
    SysStep.submit ({}, {}) "t1" "user1" (PyVal.dict PyKVs.nil) 1 rfl
  have h2 : SysStep (add_task {} c3Task, {})
      (distribute_step (add_task {} c3Task) {} true) :=
    SysStep.distribute (add_task {} c3Task, {}) true
  exact Relation.ReflTransGen.tail (Relation.ReflTransGen.single h1) h2

/-! ## C4: snapshot round trip -/

/-- A store with one worker whose address is the `('localhost', 60001)`
tuple recorded by `update_worker_heartbeat`. -/
def c4State : StateManager :=
  { workers := [("localhost_60001", ⟨addrTuple "localhost" 60001, 100⟩)] }

/-- C4 counterexample: the snapshot round trip does not reproduce the
worker table exactly: the address tuple comes back as a list. -/
theorem snapshot_roundtrip_not_exact :
    (load_state_snapshot (get_state_snapshot c4State) c4State 0).1.workers
      ≠ c4State.workers := by
  decide

/-- C4 (amended): loading the snapshot of any state `S` into any store
succeeds and yields exactly `S`'s tasks, pending queue and workers up to
JSON normalization of the embedded Python values (each task's `data` and
`result`, each worker's `addr`; tuples become lists, everything else is
unchanged), and sets the clock to the code's running maximum (floored at 0)
of the tasks' Lamport timestamps. -/
theorem snapshot_roundtrip_norm (S st0 : StateManager) (c0 : Int) :
    (load_state_snapshot (get_state_snapshot S) st0 c0).1.tasks
        = S.tasks.map (fun p => (p.1, taskNorm p.2))
    ∧ (load_state_snapshot (get_state_snapshot S) st0 c0).1.pending_tasks
        = S.pending_tasks
    ∧ (load_state_snapshot (get_state_snapshot S) st0 c0).1.workers
        = S.workers.map (fun p => (p.1, workerNorm p.2))
    ∧ (load_state_snapshot (get_state_snapshot S) st0 c0).2.1 = maxLamport S.tasks
    ∧ (load_state_snapshot (get_state_snapshot S) st0 c0).2.2 = LoadOutcome.ok := by
  refine ⟨rfl, rfl, rfl, ?_, rfl⟩
  simp [load_state_snapshot, get_state_snapshot, maxLamport, List.foldl_map, taskNorm]

/-! ## C9: the login contract -/

/-- A concrete stand-in for the lowercase-hex SHA-256 digest used by the
token scheme; the endpoint's control flow does not depend on the digest
function. -/
def c9Hash (s : String) : String := "sha256:" ++ s

/-- C9: a `login` request carrying neither `username` nor `password`
(`USERS.get(None) == None` is true in Python) is answered with a token for
the f-string rendering `"None"`, not with the credential error the claim
requires. -/
theorem login_without_credentials_returns_token :
    (handle_client c9Hash { action := some "login" } {} 0 "u1").1
      = some (PyVal.dict (PyKVs.cons "token"
          (PyVal.str (c9Hash ("None" ++ SECRET_KEY))) PyKVs.nil))
    ∧ (handle_client c9Hash { action := some "login" } {} 0 "u1").1
      ≠ some (PyVal.dict (PyKVs.cons "error"
          (PyVal.str "Credenciais inválidas") PyKVs.nil)) := by
  decide

/-! ## C7: check_dead_workers -/

theorem rescueUpd_fst (worker_id : String) (p : String × Task) :
    (rescueUpd worker_id p).1 = p.1 := by
  unfold rescueUpd
  split <;> rfl

theorem needsRescue_resetTask (v : String) (t : Task) :
    needsRescue v (resetTask t) = false := by
  simp [needsRescue, resetTask]

theorem needsRescue_exclusive {v w : String} {t : Task}
    (hv : needsRescue v t = true) (hw : needsRescue w t = true) : v = w := by
  simp only [needsRescue, Bool.and_eq_true, decide_eq_true_eq] at hv hw
  have := hv.1.symm.trans hw.1
  exact Option.some.inj this

theorem needsRescue_rescueUpd_snd {v w : String} (hvw : v ≠ w) (p : String × Task) :
    needsRescue v (rescueUpd w p).2 = needsRescue v p.2 := by
  unfold rescueUpd
  by_cases h : needsRescue w p.2 = true
  · simp only [h, if_true]
    cases hv : needsRescue v p.2 with
    | true => exact absurd (needsRescue_exclusive hv h) hvw
    | false => simpa using needsRescue_resetTask v p.2
  · simp [h]

theorem rescue_pending_fold (w : String) (l : List (String × Task)) :
    ∀ init : List String,
      l.foldl (fun q p => if needsRescue w p.2 then p.1 :: q else q) init
        = (rescuedIds w l).reverse ++ init := by
  induction l with
  | nil => intro init; simp [rescuedIds]
  | cons p rest ih =>
    intro init
    by_cases h : needsRescue w p.2 = true <;>
      simp [h, ih, rescuedIds, List.filter_cons]

theorem rescueUpd_comp (w : String) (rest : List String) (p : String × Task) :
    (if rest.any (fun v => needsRescue v (rescueUpd w p).2)
       then ((rescueUpd w p).1, resetTask (rescueUpd w p).2) else rescueUpd w p)
      = if (w :: rest).any (fun v => needsRescue v p.2)
          then (p.1, resetTask p.2) else p := by
  by_cases h : needsRescue w p.2 = true
  · simp [rescueUpd, h, needsRescue_resetTask, List.any_cons]
  · simp [rescueUpd, h, List.any_cons]

theorem rescuedIds_map_rescueUpd {v w : String} (hvw : v ≠ w)
    (ts : List (String × Task)) :
    rescuedIds v (ts.map (rescueUpd w)) = rescuedIds v ts := by
  unfold rescuedIds
  rw [List.filter_map, List.map_map]
  have h1 : ts.filter ((fun p => needsRescue v p.2) ∘ rescueUpd w)
      = ts.filter (fun p => needsRescue v p.2) :=
    List.filter_congr (fun p _ => needsRescue_rescueUpd_snd hvw p)
  have h2 : (Prod.fst ∘ rescueUpd w) = (Prod.fst : String × Task → String) :=
    funext (fun p => rescueUpd_fst w p)
  rw [h1, h2]

theorem flatMap_congr_mem {α β : Type} (l : List α) (f g : α → List β)
    (h : ∀ a ∈ l, f a = g a) : l.flatMap f = l.flatMap g := by
  induction l with
  | nil => rfl
  | cons x xs ih =>
    rw [List.flatMap_cons, List.flatMap_cons, h x (by simp),
      ih (fun a ha => h a (by simp [ha]))]

theorem key_inj {α : Type} {l : List (String × α)}
    (h : (l.map Prod.fst).Nodup) :
    ∀ p ∈ l, ∀ q ∈ l, p.1 = q.1 → p = q := by
  induction l with
  | nil => simp
  | cons x xs ih =>
    simp only [List.map_cons, List.nodup_cons] at h
    intro p hp q hq hpq
    rcases List.mem_cons.mp hp with rfl | hp' <;>
      rcases List.mem_cons.mp hq with rfl | hq'
    · rfl
    · exact absurd (hpq ▸ List.mem_map_of_mem Prod.fst hq') h.1
    · exact absurd (hpq ▸ List.mem_map_of_mem Prod.fst hp') h.1
    · exact ih h.2 p hp' q hq' hpq

theorem deadFold_spec : ∀ (d : List String), d.Nodup → ∀ s : StateManager,
    (d.foldl deadStep s).workers = s.workers.filter (fun p => decide (p.1 ∉ d))
    ∧ (d.foldl deadStep s).tasks
        = s.tasks.map (fun p =>
            if d.any (fun w => needsRescue w p.2) then (p.1, resetTask p.2) else p)
    ∧ (d.foldl deadStep s).pending_tasks
        = (d.flatMap (fun w => rescuedIds w s.tasks)).reverse ++ s.pending_tasks := by
  intro d
  induction d with
  | nil =>
    intro _ s
    refine ⟨?_, ?_, ?_⟩ <;> simp
  | cons w rest ih =>
    intro hd s
    obtain ⟨hw, hrest⟩ := List.nodup_cons.mp hd
    have hW : (deadStep s w).workers
        = s.workers.filter (fun p => decide (p.1 ≠ w)) := rfl
    have hT : (deadStep s w).tasks = s.tasks.map (rescueUpd w) := rfl
    have hP : (deadStep s w).pending_tasks
        = (rescuedIds w s.tasks).reverse ++ s.pending_tasks :=
      rescue_pending_fold w s.tasks s.pending_tasks
    obtain ⟨ihW, ihT, ihP⟩ := ih hrest (deadStep s w)
    refine ⟨?_, ?_, ?_⟩
    · rw [List.foldl_cons, ihW, hW, List.filter_filter]
      refine List.filter_congr (fun p _ => ?_)
      by_cases h1 : p.1 = w <;> by_cases h2 : p.1 ∈ rest <;> simp [h1, h2]
    · rw [List.foldl_cons, ihT, hT, List.map_map]
      exact List.map_congr_left (fun p _ => rescueUpd_comp w rest p)
    · rw [List.foldl_cons, ihP, hP, hT]
      have hcong : rest.flatMap (fun v => rescuedIds v (s.tasks.map (rescueUpd w)))
          = rest.flatMap (fun v => rescuedIds v s.tasks) :=
        flatMap_congr_mem rest _ _ (fun v hv => by
          have hvw : v ≠ w := fun h => hw (h ▸ hv)
          exact rescuedIds_map_rescueUpd hvw s.tasks)
      rw [hcong, List.flatMap_cons, List.reverse_append, List.append_assoc]

/-- C7: `check_dead_workers` removes exactly the workers whose last
heartbeat is older than `WORKER_TIMEOUT`; every task of a removed worker
that is `IN_PROGRESS` is reset to `PENDING` with its assignment cleared and
its id prepended to the pending queue (the prepended block, in reverse
rescue order, precedes the old queue); untouched tasks are unchanged; and
the returned list is exactly the ids of the workers remaining in the
table.  The worker table has distinct keys, as every Python dict does. -/
theorem check_dead_workers_spec (st : StateManager) (now : ℚ)
    (hw : (st.workers.map Prod.fst).Nodup) :
    (check_dead_workers st now).2.workers
      = st.workers.filter (fun p => !decide (now - p.2.last_heartbeat > WORKER_TIMEOUT))
    ∧ (check_dead_workers st now).2.tasks
      = st.tasks.map (fun p =>
          if (deadIds st now).any (fun w => needsRescue w p.2)
            then (p.1, resetTask p.2) else p)
    ∧ (check_dead_workers st now).2.pending_tasks
      = ((deadIds st now).flatMap (fun w => rescuedIds w st.tasks)).reverse
          ++ st.pending_tasks
    ∧ (check_dead_workers st now).1 = (check_dead_workers st now).2.workers.map Prod.fst
    ∧ (∀ w ∈ deadIds st now, ∀ p ∈ st.tasks, needsRescue w p.2 = true →
        (p.1, resetTask p.2) ∈ (check_dead_workers st now).2.tasks
        ∧ p.1 ∈ (check_dead_workers st now).2.pending_tasks) := by
  have hdnd : (deadIds st now).Nodup :=
    hw.sublist ((List.filter_sublist _).map Prod.fst)
  obtain ⟨hW, hT, hP⟩ := deadFold_spec (deadIds st now) hdnd st
  have hmemdead : ∀ p ∈ st.workers,
      (p.1 ∈ deadIds st now ↔ decide (now - p.2.last_heartbeat > WORKER_TIMEOUT) = true) := by
    intro p hp
    constructor
    · intro hmem
      obtain ⟨q, hqf, hq1⟩ := List.mem_map.mp hmem
      obtain ⟨hqmem, hqpred⟩ := List.mem_filter.mp hqf
      have := key_inj hw p hp q hqmem hq1.symm
      rw [this]
      exact hqpred
    · intro hpred
      exact List.mem_map_of_mem Prod.fst (List.mem_filter.mpr ⟨hp, hpred⟩)
  refine ⟨?_, hT, hP, rfl, ?_⟩
  · rw [show (check_dead_workers st now).2.workers
        = ((deadIds st now).foldl deadStep st).workers from rfl, hW]
    refine List.filter_congr (fun p hp => ?_)
    by_cases hd : p.1 ∈ deadIds st now
    · have hpred := (hmemdead p hp).mp hd
      simp [hd, hpred]
    · have hpred : ¬ (now - p.2.last_heartbeat > WORKER_TIMEOUT) := by
        intro hgt
        exact hd ((hmemdead p hp).mpr (decide_eq_true hgt))
      simp [hd, hpred]
  · intro w hwmem p hp hres
    constructor
    · rw [show (check_dead_workers st now).2.tasks
          = ((deadIds st now).foldl deadStep st).tasks from rfl, hT]
      have hany : ((deadIds st now).any fun v => needsRescue v p.2) = true :=
        List.any_eq_true.mpr ⟨w, hwmem, hres⟩
      have : (if (deadIds st now).any (fun v => needsRescue v p.2)
          then (p.1, resetTask p.2) else p) = (p.1, resetTask p.2) := by
        simp [hany]
      exact this ▸ List.mem_map_of_mem _ hp
    · rw [show (check_dead_workers st now).2.pending_tasks
          = ((deadIds st now).foldl deadStep st).pending_tasks from rfl, hP]
      refine List.mem_append_left _ (List.mem_reverse.mpr ?_)
      exact List.mem_flatMap.mpr ⟨w, hwmem,
        List.mem_map_of_mem Prod.fst (List.mem_filter.mpr ⟨hp, hres⟩)⟩

/-- A concrete store for the C7 witness: worker `w1` last heartbeat at 0,
worker `w2` at 8, one `IN_PROGRESS` task assigned to `w1`, one queued id. -/
def c7State : StateManager :=
  { tasks := [("t1", { id := "t1", client_id := "user1", status := "IN_PROGRESS",
                       assigned_worker := some "w1" })]
    pending_tasks := ["t0"]
    workers := [("w1", ⟨addrTuple "localhost" 60001, 0⟩),
                ("w2", ⟨addrTuple "localhost" 60002, 8⟩)] }

/-- Witness for C7 at time 10: `w1` is 10 seconds stale (dead), `w2` is 2
seconds stale (alive). -/
theorem check_dead_workers_spec_witness :
    (check_dead_workers c7State 10).2.workers
      = c7State.workers.filter (fun p => !decide ((10 : ℚ) - p.2.last_heartbeat > WORKER_TIMEOUT))
    ∧ (check_dead_workers c7State 10).2.tasks
      = c7State.tasks.map (fun p =>
          if (deadIds c7State 10).any (fun w => needsRescue w p.2)
            then (p.1, resetTask p.2) else p)
    ∧ (check_dead_workers c7State 10).2.pending_tasks
      = ((deadIds c7State 10).flatMap (fun w => rescuedIds w c7State.tasks)).reverse
          ++ c7State.pending_tasks
    ∧ (check_dead_workers c7State 10).1
      = (check_dead_workers c7State 10).2.workers.map Prod.fst :=
  ⟨(check_dead_workers_spec c7State 10 (by decide)).1,
   (check_dead_workers_spec c7State 10 (by decide)).2.1,
   (check_dead_workers_spec c7State 10 (by decide)).2.2.1,
   (check_dead_workers_spec c7State 10 (by decide)).2.2.2.1⟩

/-! ## C6: round-robin fairness -/

theorem countP_mod_range (N r : Nat) (hr : r < N) :
    ∀ K : Nat, ((List.range K).countP (fun i => decide (i % N = r)))
      = K / N + (if r < K % N then 1 else 0) := by
  intro K
  induction K with
  | zero => simp
  | succ K ih =>
    rw [List.range_succ, List.countP_append, ih]
    have hN : 0 < N := Nat.lt_of_le_of_lt (Nat.zero_le r) hr
    have hdm := Nat.div_add_mod K N
    have hsplit : K + 1 = (K % N + 1) + N * (K / N) := by omega
    have hmod : (K + 1) % N = (K % N + 1) % N := by
      rw [hsplit, Nat.add_mul_mod_self_left]
    have hdiv : (K + 1) / N = (K % N + 1) / N + K / N := by
      rw [hsplit, Nat.add_mul_div_left _ _ hN]
    have hsing : (List.countP (fun i => decide (i % N = r)) [K])
        = if K % N = r then 1 else 0 := by
      simp [List.countP_cons]
    rw [hsing]
    by_cases hlast : K % N + 1 = N
    · have h1 : (K + 1) % N = 0 := by rw [hmod, hlast, Nat.mod_self]
      have h2 : (K + 1) / N = 1 + K / N := by rw [hdiv, hlast, Nat.div_self hN]
      rw [h1, h2]
      split_ifs <;> omega
    · have hKpos : K % N < N := Nat.mod_lt K hN
      have hlt : K % N + 1 < N := by omega
      have h1 : (K + 1) % N = K % N + 1 := by rw [hmod, Nat.mod_eq_of_lt hlt]
      have h2 : (K + 1) / N = K / N := by rw [hdiv, Nat.div_eq_of_lt hlt]; omega
      rw [h1, h2]
      split_ifs <;> omega

theorem shift_mod_iff (n c j i : Nat) (hc : c < n) (hj : j < n) :
    ((c + i) % n = j) ↔ (i % n = (j + n - c) % n) := by
  have hn : 0 < n := Nat.lt_of_le_of_lt (Nat.zero_le c) hc
  have h1 : (c + i) % n = (c + i % n) % n := (Nat.add_mod_mod c i n).symm
  have ham : i % n < n := Nat.mod_lt _ hn
  rw [h1]
  by_cases hjc : c ≤ j
  · have hr : (j + n - c) % n = j - c := by
      have he : j + n - c = (j - c) + n := by omega
      rw [he, Nat.add_mod_right, Nat.mod_eq_of_lt (by omega)]
    rw [hr]
    constructor
    · intro h
      rcases Nat.lt_or_ge (c + i % n) n with h2 | h2
      · rw [Nat.mod_eq_of_lt h2] at h; omega
      · have h3 : (c + i % n) % n = c + i % n - n := by
          rw [Nat.mod_eq_sub_mod h2, Nat.mod_eq_of_lt (by omega)]
        rw [h3] at h; omega
    · intro h
      have he : c + i % n = j := by omega
      rw [he, Nat.mod_eq_of_lt hj]
  · push_neg at hjc
    have hr : (j + n - c) % n = j + n - c := Nat.mod_eq_of_lt (by omega)
    rw [hr]
    constructor
    · intro h
      rcases Nat.lt_or_ge (c + i % n) n with h2 | h2
      · rw [Nat.mod_eq_of_lt h2] at h; omega
      · have h3 : (c + i % n) % n = c + i % n - n := by
          rw [Nat.mod_eq_sub_mod h2, Nat.mod_eq_of_lt (by omega)]
        rw [h3] at h; omega
    · intro h
      have h2 : n ≤ c + i % n := by omega
      have h3 : (c + i % n) % n = c + i % n - n := by
        rw [Nat.mod_eq_sub_mod h2, Nat.mod_eq_of_lt (by omega)]
      rw [h3]; omega

theorem get_next_worker_eq (l : List String) (c : Nat) (hc : c < l.length) :
    get_next_worker ⟨l, c⟩ = (some (l.get ⟨c, hc⟩), ⟨l, (c + 1) % l.length⟩) := by
  have hne : ¬ (l.length = 0) := by omega
  have hge : ¬ (c ≥ l.length) := by omega
  simp [get_next_worker, hne, hge]

theorem runRR_fst (l : List String) (hl : 0 < l.length) :
    ∀ (K c : Nat), c < l.length →
      (runRR ⟨l, c⟩ K).1 = (List.range K).map
        (fun i => some (l.get ⟨(c + i) % l.length, Nat.mod_lt _ hl⟩)) := by
  have hget : ∀ (x y : Nat) (hx : x < l.length) (hy : y < l.length), x = y →
      l.get ⟨x, hx⟩ = l.get ⟨y, hy⟩ := by
    intro x y hx hy h
    subst h
    rfl
  intro K
  induction K with
  | zero => intro c hc; simp [runRR]
  | succ K ih =>
    intro c hc
    simp only [runRR, get_next_worker_eq l c hc]
    rw [ih ((c + 1) % l.length) (Nat.mod_lt _ hl), List.range_succ_eq_map]
    simp only [List.map_cons, List.map_map]
    congr 1
    · exact congrArg some (hget _ _ hc _ (by rw [Nat.add_zero, Nat.mod_eq_of_lt hc]))
    · refine List.map_congr_left (fun i _ => ?_)
      refine congrArg some (hget _ _ _ _ ?_)
      rw [Nat.mod_add_mod]
      congr 1
      omega

theorem runRR_count_floor_ceil (l : List String) (hnd : l.Nodup) (hl : 0 < l.length)
    (c : Nat) (hc : c < l.length) (w : String) (hw : w ∈ l) (K : Nat) :
    (runRR ⟨l, c⟩ K).1.count (some w) = K / l.length
    ∨ (runRR ⟨l, c⟩ K).1.count (some w) = (K + l.length - 1) / l.length := by
  obtain ⟨j, hj⟩ := List.mem_iff_get.mp hw
  have hr : (j.val + l.length - c) % l.length < l.length := Nat.mod_lt _ hl
  have h1 : (runRR ⟨l, c⟩ K).1.count (some w)
      = (List.range K).countP
          (fun i => decide (i % l.length = (j.val + l.length - c) % l.length)) := by
    rw [runRR_fst l hl K c hc, List.count_eq_countP, List.countP_map]
    refine List.countP_congr (fun i _ => ?_)
    simp only [Function.comp_apply, beq_iff_eq, Option.some.injEq, decide_eq_true_eq]
    rw [← hj, hnd.get_inj_iff, Fin.ext_iff]
    exact shift_mod_iff l.length c j.val i hc j.isLt
  rw [h1, countP_mod_range l.length _ hr K]
  by_cases hx : (j.val + l.length - c) % l.length < K % l.length
  · right
    have hKne : K % l.length ≠ 0 := by omega
    have hK1 : 1 ≤ K := by
      rcases Nat.eq_zero_or_pos K with h | h
      · subst h
        simp at hKne
      · exact h
    have hndvd : ¬ l.length ∣ K := fun hd => hKne (Nat.mod_eq_zero_of_dvd hd)
    have hsucc := Nat.succ_div (K - 1) l.length
    have hKm : K - 1 + 1 = K := by omega
    rw [hKm] at hsucc
    have hKdiv : K / l.length = (K - 1) / l.length := by
      rw [hsucc]
      simp [hndvd]
    have hstep : K + l.length - 1 = (K - 1) + l.length := by omega
    have hceil : (K + l.length - 1) / l.length = K / l.length + 1 := by
      rw [hstep, Nat.add_div_right _ hl, ← hKdiv]
    rw [hceil]
    simp [hx]
  · left
    simp [hx]

/-- C6: after `update_workers` installs a non-empty duplicate-free worker
list, any `K` consecutive `get_next_worker()` calls return each installed
worker id either `⌊K/N⌋` or `⌈K/N⌉ = (K+N-1)/N` times (`N` the list's
length); and `get_next_worker` returns none exactly when the installed list
is empty. -/
theorem round_robin_fairness (lb : RoundRobinLoadBalancer) (ws : List String)
    (K : Nat) (w : String) (hne : ws ≠ []) (hnd : ws.Nodup)
    (hK : ws.length ≤ K) (hw : w ∈ ws) :
    ((runRR (update_workers lb ws) K).1.count (some w) = K / ws.length
      ∨ (runRR (update_workers lb ws) K).1.count (some w)
          = (K + ws.length - 1) / ws.length)
    ∧ (∀ lb0 : RoundRobinLoadBalancer,
        (get_next_worker lb0).1 = Option.none ↔ lb0.workers = []) := by
  constructor
  · have hperm := List.perm_insertionSort (fun a b : String => a ≤ b) ws
    have hlen : (ws.insertionSort (fun a b => a ≤ b)).length = ws.length :=
      hperm.length_eq
    have hlnd : (ws.insertionSort (fun a b => a ≤ b)).Nodup := hperm.nodup_iff.mpr hnd
    have hlw : w ∈ ws.insertionSort (fun a b => a ≤ b) := hperm.mem_iff.mpr hw
    have hl0 : 0 < (ws.insertionSort (fun a b => a ≤ b)).length := by
      rw [hlen]
      exact List.length_pos.mpr hne
    have hc : (update_workers lb ws).current_index
        < (ws.insertionSort (fun a b => a ≤ b)).length := by
      simp only [update_workers]
      split
      · exact hl0
      · next h => exact Nat.lt_of_not_le h
    have heta : update_workers lb ws
        = (⟨ws.insertionSort (fun a b => a ≤ b), (update_workers lb ws).current_index⟩ :
            RoundRobinLoadBalancer) := rfl
    have hres := runRR_count_floor_ceil (ws.insertionSort (fun a b => a ≤ b)) hlnd hl0
      (update_workers lb ws).current_index hc w hlw K
    rw [hlen] at hres
    rw [heta]
    exact hres
  · intro lb0
    constructor
    · intro h
      by_cases h0 : lb0.workers.length = 0
      · exact List.length_eq_zero.mp h0
      · exfalso
        simp [get_next_worker, h0] at h
    · intro h
      simp [get_next_worker, h]

/-- Witness for C6: three workers installed from the unsorted list
`["b","a","c"]`, four dispatches; worker `"a"` is drawn twice, which is
`⌈4/3⌉`. -/
theorem round_robin_fairness_witness :
    (runRR (update_workers {} ["b", "a", "c"]) 4).1.count (some "a") = 4 / 3
    ∨ (runRR (update_workers {} ["b", "a", "c"]) 4).1.count (some "a")
        = (4 + 3 - 1) / 3 :=
  (round_robin_fairness {} ["b", "a", "c"] 4 "a" (by decide) (by decide)
    (by decide) (by decide)).1

end SD
